import Mathlib

/-!
Shallow embedding of the pharmanio-backend duty-roster ingestion pipeline
(`scraper.py`, `main.py`, `database.py`), together with proofs of the
specification's claims about it.

Modelling conventions:
* SQLite tables are lists of typed rows; `AUTOINCREMENT` ids are allocated as
  `max id + 1` (1 on an empty table), and the core never deletes rows.
* `CURRENT_TIMESTAMP` is modelled as an explicit `now : Nat` parameter of each
  write operation.
* Python floats returned by `difflib.SequenceMatcher.ratio` are modelled as
  exact rationals `2 * M / T : ℚ`.
* Python strings are Lean `String`s; `str.lower` / `str.upper` / `str.strip`
  are modelled with `Char.toLower` / `Char.toUpper` / `String.trim` (the data
  involved is ASCII).
-/

namespace Pharmanio

/-! ### difflib.SequenceMatcher (stdlib dependency of `_find_pharmacy_match`)

`SequenceMatcher(None, a, b).ratio()` with the default `autojunk=True` and no
junk predicate.  The junk set `bjunk` is empty (the junk predicate is `None`),
so the two junk-extension loops of `find_longest_match` never fire and are not
modelled; the two non-junk extension loops are modelled.  -/

namespace Difflib

/-- Ascending indices of the occurrences of `c` in `b`: the `b2j[c]` list that
`SequenceMatcher.__chain_b` builds before the autojunk purge. -/
def occurrences (b : List Char) (c : Char) : List Nat :=
  (List.range b.length).filter (fun j => b.getD j ' ' = c)

/-- The autojunk purge of `__chain_b`: once `len(b) >= 200`, every element
occurring more than `len(b) // 100 + 1` times is removed from `b2j`. -/
def isPopular (b : List Char) (c : Char) : Bool :=
  decide (200 ≤ b.length) && decide (b.length / 100 + 1 < b.count c)

/-- `b2j[c]` after the autojunk purge (missing keys read as the empty list). -/
def b2j (b : List Char) (c : Char) : List Nat :=
  if isPopular b c then [] else occurrences b c

/-- One row of the `find_longest_match` dynamic programme: scan the `b`-indices
of `a[i]` (already range-filtered), threading `newj2len` and the best block.
The accumulator is `(newj2len, besti, bestj, bestsize)`; `j2len` is the map of
the previous row, read at `j - 1` (a read at Python key `-1`, i.e. `j = 0`,
yields the default `0`). -/
def flmRow (j2len : Nat → Nat) (i : Nat) (js : List Nat)
    (st : Nat × Nat × Nat) : (Nat → Nat) × Nat × Nat × Nat :=
  js.foldl
    (fun acc j =>
      let k := (if j = 0 then 0 else j2len (j - 1)) + 1
      let nj := fun x => if x = j then k else acc.1 x
      if acc.2.2.2 < k then (nj, i + 1 - k, j + 1 - k, k)
      else (nj, acc.2.1, acc.2.2.1, acc.2.2.2))
    ((fun _ => 0), st)

/-- The main loop of `find_longest_match` over `a[alo:ahi]` / `b[blo:bhi]`,
returning `(besti, bestj, bestsize)` before the extension loops. -/
def flmCore (a b : List Char) (alo ahi blo bhi : Nat) : Nat × Nat × Nat :=
  let res :=
    (List.range' alo (ahi - alo)).foldl
      (fun (acc : (Nat → Nat) × Nat × Nat × Nat) i =>
        let js := (b2j b (a.getD i ' ')).filter
          (fun j => decide (blo ≤ j) && decide (j < bhi))
        flmRow acc.1 i js acc.2)
      ((fun _ => 0), alo, blo, 0)
  res.2

/-- First extension loop of `find_longest_match`: extend the best block
backwards while the preceding elements match.  Structural recursion on a fuel
argument: each iteration decreases `besti` by one and the loop guard requires
`alo < besti`, so a fuel of `besti` steps is exactly enough and the fuel-out
branch is unreachable when called by `findLongestMatch`. -/
def extendBackF (a b : List Char) (alo blo : Nat) :
    Nat → Nat → Nat → Nat → Nat × Nat × Nat
  | 0, besti, bestj, bestsize => (besti, bestj, bestsize)
  | fuel + 1, besti, bestj, bestsize =>
    if alo < besti ∧ blo < bestj ∧
        a.getD (besti - 1) ' ' = b.getD (bestj - 1) '\t' then
      extendBackF a b alo blo fuel (besti - 1) (bestj - 1) (bestsize + 1)
    else (besti, bestj, bestsize)

/-- Second extension loop of `find_longest_match`: extend the best block
forwards while the following elements match.  Fuel-structural as in
`extendBackF`: each iteration grows `bestsize` under the guard
`besti + bestsize < ahi`, so `ahi` steps of fuel always suffice. -/
def extendFwdF (a b : List Char) (ahi bhi besti bestj : Nat) :
    Nat → Nat → Nat
  | 0, bestsize => bestsize
  | fuel + 1, bestsize =>
    if besti + bestsize < ahi ∧ bestj + bestsize < bhi ∧
        a.getD (besti + bestsize) ' ' = b.getD (bestj + bestsize) '\t' then
      extendFwdF a b ahi bhi besti bestj fuel (bestsize + 1)
    else bestsize

/-- `find_longest_match(alo, ahi, blo, bhi)` (with `bjunk = ∅`). -/
def findLongestMatch (a b : List Char) (alo ahi blo bhi : Nat) :
    Nat × Nat × Nat :=
  let c := flmCore a b alo ahi blo bhi
  let e := extendBackF a b alo blo c.1 c.1 c.2.1 c.2.2
  (e.1, e.2.1, extendFwdF a b ahi bhi e.1 e.2.1 ahi e.2.2)

/-- Total matched size `M = sum of k over get_matching_blocks()`.  The queue of
`get_matching_blocks` is the recursion on the two sub-ranges flanking the
longest match; each level strictly shrinks the `a`-range, so the recursion
depth is at most `ahi - alo` and the fuel `a.length + 1` supplied by
`matchTotal` is never exhausted. -/
def blocksTotal (a b : List Char) : Nat → Nat → Nat → Nat → Nat → Nat
  | 0, _, _, _, _ => 0
  | fuel + 1, alo, ahi, blo, bhi =>
    let m := findLongestMatch a b alo ahi blo bhi
    if m.2.2 = 0 then 0
    else
      m.2.2 + blocksTotal a b fuel alo m.1 blo m.2.1 +
        blocksTotal a b fuel (m.1 + m.2.2) ahi (m.2.1 + m.2.2) bhi

/-- `M` for the full sequences. -/
def matchTotal (a b : List Char) : Nat :=
  blocksTotal a b (a.length + 1) 0 a.length 0 b.length

/-- `SequenceMatcher.ratio() = 2.0 * M / T` (`1.0` when `T = 0`), as the exact
rational `2M/T` (built with `mkRat`, which normalizes exactly like `(2*M)/T`
in `ℚ`). -/
def ratio (a b : List Char) : ℚ :=
  let t := a.length + b.length
  if t = 0 then 1 else mkRat (2 * matchTotal a b) t

end Difflib

/-- `SequenceMatcher(None, pharmacy_name.lower(), db_name.lower()).ratio()`. -/
def similarity (pharmacyName dbName : String) : ℚ :=
  Difflib.ratio (pharmacyName.data.map Char.toLower)
    (dbName.data.map Char.toLower)

/-! ### Registry and matcher (`scraper.py`) -/

/-- `SIMILARITY_THRESHOLD = 0.4` (the literal value; the source comment reads
"60% similarity threshold" but the constant is `0.4`). -/
def SIMILARITY_THRESHOLD : ℚ := mkRat 2 5

/-- `CITY_MAPPING`, in source order. -/
def CITY_MAPPING : List (String × String) :=
  [("TANA", "Antananarivo"), ("ANTSIRABE", "Antsirabe"),
   ("FIANARANTSOA", "Fianarantsoa"), ("TAMATAVE", "Toamasina"),
   ("DIEGO", "Antsiranana"), ("TULEAR", "Toliara"), ("MAJUNGA", "Mahajanga")]

/-- Python `str.upper` (ASCII behaviour), as a character map. -/
def pyUpper (s : String) : String := ⟨s.data.map Char.toUpper⟩

/-- `_map_city_name`: `CITY_MAPPING.get(scraped_city.upper(), scraped_city)`. -/
def mapCityName (scrapedCity : String) : String :=
  match CITY_MAPPING.find? (fun kv => kv.1 = pyUpper scrapedCity) with
  | some kv => kv.2
  | none => scrapedCity

/-- A row of the `pharmacies` table joined with `cities` (the registry is
read-only input to the core; `cityName` is the joined `cities.name`). -/
structure Pharm where
  id : Nat
  cityName : String
  name : String
deriving DecidableEq, Repr

/-- The rows returned by
`SELECT p.id, p.name FROM pharmacies p JOIN cities c ON p.city_id = c.id
WHERE c.name = ?`, in registry iteration order. -/
def candidatesFor (reg : List Pharm) (dbCity : String) : List (Nat × String) :=
  (reg.filter (fun p => p.cityName = dbCity)).map (fun p => (p.id, p.name))

/-- One iteration of the best-match loop of `_find_pharmacy_match`: the
accumulator is `(best_match, best_ratio)` and the guard is
`ratio > best_ratio`. -/
def bestStep (pharmacyName : String) (acc : Option Nat × ℚ)
    (cand : Nat × String) : Option Nat × ℚ :=
  if acc.2 < similarity pharmacyName cand.2 then
    (some cand.1, similarity pharmacyName cand.2)
  else acc

/-- The best-match loop, started from `best_match = None`, `best_ratio = 0`. -/
def bestOf (pharmacyName : String) (cands : List (Nat × String)) :
    Option Nat × ℚ :=
  cands.foldl (bestStep pharmacyName) (none, 0)

/-- `_find_pharmacy_match` with the acceptance threshold made a parameter
(the source reads the module constant `SIMILARITY_THRESHOLD`); the final gate
is `best_ratio > threshold`. -/
def findPharmacyMatchT (t : ℚ) (reg : List Pharm)
    (pharmacyName city : String) : Option Nat :=
  let cands := candidatesFor reg (mapCityName city)
  if cands.isEmpty then none
  else if t < (bestOf pharmacyName cands).2 then (bestOf pharmacyName cands).1
  else none

/-- `_find_pharmacy_match` as in the source. -/
def findPharmacyMatch (reg : List Pharm) (pharmacyName city : String) :
    Option Nat :=
  findPharmacyMatchT SIMILARITY_THRESHOLD reg pharmacyName city

/-! ### Roster reconciler (`_update_on_duty_pharmacies`) -/

/-- A row of the `on_duty_pharmacies` table.  `pharmacy_ids` is stored as a
JSON array; `json.dumps`/`json.loads` round-trip a list of ints verbatim, so
it is modelled as the list itself.  Timestamps are abstract `Nat` instants. -/
structure RosterRow where
  id : Nat
  startDate : String
  endDate : String
  pharmacyIds : List Nat
  createdAt : Nat
  updatedAt : Nat
deriving DecidableEq, Repr

instance : Inhabited RosterRow := ⟨⟨0, "", "", [], 0, 0⟩⟩

/-- `SELECT id FROM on_duty_pharmacies ORDER BY id LIMIT 1`. -/
def minRowId (db : List RosterRow) : Option Nat :=
  match db.map (fun r => r.id) with
  | [] => none
  | x :: xs => some (xs.foldl Nat.min x)

/-- The id SQLite assigns to a freshly inserted row (`max id + 1`; `1` on an
empty table — the core never deletes rows). -/
def nextRowId (db : List RosterRow) : Nat :=
  (db.map (fun r => r.id)).foldl Nat.max 0 + 1

/-- `_update_on_duty_pharmacies(start_date, end_date, pharmacy_ids)`: if a row
exists, `UPDATE` the lowest-id row in place (refreshing `updated_at` to
`CURRENT_TIMESTAMP`, modelled by `now`); otherwise `INSERT` a new row (whose
`created_at`/`updated_at` default to `CURRENT_TIMESTAMP`). -/
def updateOnDutyPharmacies (startDate endDate : String) (ids : List Nat)
    (now : Nat) (db : List RosterRow) : List RosterRow :=
  match minRowId db with
  | some i =>
    db.map (fun r =>
      if r.id = i then ⟨r.id, startDate, endDate, ids, r.createdAt, now⟩
      else r)
  | none => db ++ [⟨nextRowId db, startDate, endDate, ids, now, now⟩]

/-! ### Processing scraped listings (`process_scraped_pharmacies`) -/

/-- A raw scraped listing (the dict built by `_parse_pharmacy_row`). -/
structure RawListing where
  name : String
  address : String
  city : String
  contactNumbers : List String
deriving DecidableEq, Repr

/-- Python truthiness of the optional date strings (`if start_date and
end_date`): `None` and `""` are falsy. -/
def pyTruthy : Option String → Bool
  | none => false
  | some s => !(s = "")

/-- One iteration of the matching loop of `process_scraped_pharmacies`: the
ids (zero or one) a listing appends to `matched_pharmacy_ids`.  Listings
whose parsed name or city is empty are skipped (`if pharmacy_name and city`),
and a match result is appended only if it is truthy (`if pharmacy_id`, so a
hypothetical id `0` would also be dropped). -/
def matchContrib (reg : List Pharm) (p : RawListing) : List Nat :=
  if !(p.name = "") && !(p.city = "") then
    match findPharmacyMatch reg p.name p.city with
    | some pid => if pid ≠ 0 then [pid] else []
    | none => []
  else []

/-- The matching loop of `process_scraped_pharmacies`: each listing's
contribution, appended in listing order. -/
def matchedIds (reg : List Pharm) : List RawListing → List Nat
  | [] => []
  | p :: rest => matchContrib reg p ++ matchedIds reg rest

/-- `process_scraped_pharmacies(pharmacies, start_date, end_date)`: match all
listings, then write the roster only when both dates are truthy. -/
def processScrapedPharmacies (reg : List Pharm) (pharmacies : List RawListing)
    (startDate endDate : Option String) (now : Nat) (db : List RosterRow) :
    List RosterRow :=
  if pyTruthy startDate && pyTruthy endDate then
    updateOnDutyPharmacies (startDate.getD "") (endDate.getD "")
      (matchedIds reg pharmacies) now db
  else db

/-! ### Date-range extraction (`_extract_date_range`)

The regex is `(\d{2}/\d{2}/\d{4})\s+au\s+(\d{2}/\d{2}/\d{4})` under
`re.search`.  `\d` and `\s` are modelled as ASCII digits and ASCII whitespace
(the titles involved are ASCII).  Every piece of the pattern has fixed width
except `\s+`, and a maximal whitespace run followed by the required literal is
the unique way `\s+` can match (backtracking cannot succeed where the greedy
match fails, since the follow-set of `\s+` is disjoint from `\s`), so the
match at a given start position is deterministic; `re.search` takes the
leftmost position at which it succeeds. -/

def isAsciiDigit (c : Char) : Bool := '0' ≤ c && c ≤ '9'

/-- Python `\s` on ASCII text: space, tab, newline, CR, vertical tab, FF.
Python `str.strip()` with no argument strips the same ASCII whitespace set. -/
def isPySpace (c : Char) : Bool :=
  c = ' ' || c = '\t' || c = '\n' || c = '\x0d' || c = '\x0b' || c = '\x0c'

/-- Python `str.strip()` (ASCII whitespace): drop leading and trailing
whitespace. -/
def pyStrip (s : String) : String :=
  ⟨((s.data.dropWhile isPySpace).reverse.dropWhile isPySpace).reverse⟩

/-- Split `l` at the first occurrence of `sep`: `(before, after)`, or `none`
when `sep` does not occur.  Callers always pass a non-empty `sep`. -/
def findSep (sep : List Char) : List Char → Option (List Char × List Char)
  | [] => none
  | c :: rest =>
    if sep.isPrefixOf (c :: rest) then some ([], (c :: rest).drop sep.length)
    else
      match findSep sep rest with
      | some pp => some (c :: pp.1, pp.2)
      | none => none

/-- Python `str.split(sep)` with an explicit non-empty separator, split left
to right.  Fuel-structural recursion: every recursive step consumes at least
`sep.length ≥ 1` characters, so `l.length + 1` fuel always suffices. -/
def splitSepF (sep : List Char) : Nat → List Char → List (List Char)
  | 0, l => [l]
  | fuel + 1, l =>
    match findSep sep l with
    | none => [l]
    | some pp => pp.1 :: splitSepF sep fuel pp.2

/-- Python `str.split(sep)`. -/
def pySplit (s sep : String) : List String :=
  (splitSepF sep.data (s.data.length + 1) s.data).map (fun l => ⟨l⟩)

/-- Match `\d{2}/\d{2}/\d{4}` at the head; return the ten matched characters
and the rest. -/
def matchDDMMYYYY : List Char → Option (List Char × List Char)
  | d1 :: d2 :: s1 :: m1 :: m2 :: s2 :: y1 :: y2 :: y3 :: y4 :: rest =>
    if isAsciiDigit d1 && isAsciiDigit d2 && s1 = '/' && isAsciiDigit m1 &&
        isAsciiDigit m2 && s2 = '/' && isAsciiDigit y1 && isAsciiDigit y2 &&
        isAsciiDigit y3 && isAsciiDigit y4 then
      some ([d1, d2, s1, m1, m2, s2, y1, y2, y3, y4], rest)
    else none
  | _ => none

/-- Match `\s+au\s+` at the head; return the rest. -/
def matchConnector (l : List Char) : Option (List Char) :=
  if l.takeWhile isPySpace = [] then none
  else
    match l.dropWhile isPySpace with
    | 'a' :: 'u' :: rest =>
      if rest.takeWhile isPySpace = [] then none
      else some (rest.dropWhile isPySpace)
    | _ => none

/-- Match the whole pattern at the head; return the two date groups. -/
def matchDateRangeAt (l : List Char) : Option (List Char × List Char) :=
  match matchDDMMYYYY l with
  | none => none
  | some g1 =>
    match matchConnector g1.2 with
    | none => none
    | some afterAu =>
      match matchDDMMYYYY afterAu with
      | none => none
      | some g2 => some (g1.1, g2.1)

/-- `re.search`: try the pattern at each start position, leftmost first. -/
def dateRangeSearch : List Char → Option (List Char × List Char)
  | [] => none
  | c :: rest =>
    match matchDateRangeAt (c :: rest) with
    | some g => some g
    | none => dateRangeSearch rest

/-- A calendar date as `datetime.datetime` holds it (year, month, day). -/
structure Date where
  year : Nat
  month : Nat
  day : Nat
deriving DecidableEq, Repr

def isLeapYear (y : Nat) : Bool := (y % 4 = 0 && y % 100 ≠ 0) || y % 400 = 0

def daysInMonth (y m : Nat) : Nat :=
  if m = 2 then (if isLeapYear y then 29 else 28)
  else if m = 4 || m = 6 || m = 9 || m = 11 then 30
  else 31

/-- The dates `datetime` accepts: `MINYEAR = 1 ≤ year ≤ 9999 = MAXYEAR`,
`1 ≤ month ≤ 12`, `1 ≤ day ≤ days in month`. -/
def validDate (y m d : Nat) : Bool :=
  1 ≤ y && y ≤ 9999 && 1 ≤ m && m ≤ 12 && 1 ≤ d && d ≤ daysInMonth y m

def natOfDigits (l : List Char) : Nat :=
  l.foldl (fun n c => 10 * n + (c.toNat - 48)) 0

/-- `datetime.strptime(group, '%d/%m/%Y')`: the group is exactly
`dd/mm/yyyy` by construction; fails (`ValueError`) unless the calendar date is
valid. -/
def strptimeDDMMYYYY (g : List Char) : Option Date :=
  match g with
  | [d1, d2, _, m1, m2, _, y1, y2, y3, y4] =>
    let d := natOfDigits [d1, d2]
    let m := natOfDigits [m1, m2]
    let y := natOfDigits [y1, y2, y3, y4]
    if validDate y m d then some ⟨y, m, d⟩ else none
  | _ => none

def pad2 (n : Nat) : String := if n < 10 then "0" ++ toString n else toString n

def pad4 (n : Nat) : String :=
  if n < 10 then "000" ++ toString n
  else if n < 100 then "00" ++ toString n
  else if n < 1000 then "0" ++ toString n
  else toString n

/-- `strftime('%Y-%m-%d')`, zero-padded fields (for `%Y` this matches the
4-digit years the regex can produce; glibc leaves years below 1000 unpadded,
a case the `dd/mm/yyyy` pattern still allows but the site never produces). -/
def strftimeISO (d : Date) : String :=
  pad4 d.year ++ "-" ++ pad2 d.month ++ "-" ++ pad2 d.day

/-- `_extract_date_range(title)`. -/
def extractDateRange (title : String) : Option String × Option String :=
  match dateRangeSearch title.data with
  | none => (none, none)
  | some g =>
    match strptimeDDMMYYYY g.1, strptimeDDMMYYYY g.2 with
    | some a, some b => (some (strftimeISO a), some (strftimeISO b))
    | _, _ => (none, none)

/-! ### Row parsing and the scrape entry point -/

/-- Python `sub in s` substring membership. -/
def strContains (s sub : String) : Bool :=
  (List.range (s.length + 1)).any (fun i => sub.data.isPrefixOf (s.data.drop i))

/-- A `<td>` cell as `_parse_pharmacy_row` reads it: `bold` is the text of the
first `<b>` descendant (if any), `text` is `cell.text`, and `sepText` is
`cell.get_text(separator='\n')`. -/
structure PageCell where
  bold : Option String
  text : String
  sepText : String
deriving DecidableEq, Repr

instance : Inhabited PageCell := ⟨⟨none, "", ""⟩⟩

/-- `_parse_pharmacy_row(row)` over the row's `<td>` cells. -/
def parsePharmacyRow (cells : List PageCell) : Option RawListing :=
  if cells.length < 3 then none
  else
    let pharmacyName :=
      match (cells.getD 0 default).bold with
      | some t => pyStrip t
      | none => ""
    let address := pyStrip (cells.getD 1 default).text
    let contactText := pyStrip (cells.getD 2 default).sepText
    let nums := ((pySplit contactText "\n").map pyStrip).filter
      (fun s => !(s = ""))
    let city :=
      if strContains address " - " then pyStrip ((pySplit address " - ").getD 0 "")
      else ""
    some ⟨pharmacyName, address, city, nums⟩

/-- The page as `scrape_pharmacies` reads it: the `<h1 class="text-center">`
text (if the element exists) and the `tbody` rows of the
`#datatable-buttons` table (absent when the table or its `tbody` is
missing). -/
structure Page where
  title : Option String
  table : Option (List (List PageCell))
deriving DecidableEq

/-- Outcome of `requests.get` + HTML parsing: a `RequestException` (or parse
error), or a page. -/
inductive FetchResult where
  | failure
  | success (page : Page)

/-- `scrape_pharmacies()`: on fetch failure return `([], None, None)`;
otherwise extract the date range from the (stripped) title and parse every
row, skipping rows `_parse_pharmacy_row` rejects. -/
def scrapePharmacies : FetchResult → List RawListing × Option String × Option String
  | .failure => ([], none, none)
  | .success pg =>
    let title := match pg.title with | some t => pyStrip t | none => ""
    let dates := extractDateRange title
    let listings :=
      match pg.table with
      | none => []
      | some rows => rows.filterMap parsePharmacyRow
    (listings, dates.1, dates.2)

/-! ### Expiry controller (`check_and_update_on_duty` in `main.py`) -/

/-- `SELECT end_date FROM on_duty_pharmacies ORDER BY id DESC LIMIT 1`. -/
def maxIdRow (db : List RosterRow) : Option RosterRow :=
  match db with
  | [] => none
  | r :: rs => some (rs.foldl (fun a b => if a.id < b.id then b else a) r)

/-- `datetime.strptime(s, "%Y-%m-%d").date()`: split on `-`, each field a
digit run of the width `strptime` accepts, and the result a valid calendar
date; `None` models the `ValueError` path. -/
def parseIsoDate (s : String) : Option Date :=
  match pySplit s "-" with
  | [ys, ms, ds] =>
    if ys.data.all isAsciiDigit && 1 ≤ ys.length && ys.length ≤ 4 &&
        ms.data.all isAsciiDigit && 1 ≤ ms.length && ms.length ≤ 2 &&
        ds.data.all isAsciiDigit && 1 ≤ ds.length && ds.length ≤ 2 then
      let y := natOfDigits ys.data
      let m := natOfDigits ms.data
      let d := natOfDigits ds.data
      if validDate y m d then some ⟨y, m, d⟩ else none
    else none
  | _ => none

/-- `datetime.date` comparison `a < b` (lexicographic on year, month, day). -/
def dateLtB (a b : Date) : Bool :=
  a.year < b.year ||
    (a.year = b.year &&
      (a.month < b.month || (a.month = b.month && a.day < b.day)))

/-- `datetime.date` comparison `a ≤ b`. -/
def dateLeB (a b : Date) : Bool := dateLtB a b || a = b

/-- `check_and_update_on_duty()`, one invocation: read the roster's end date;
if no row exists, or `today > end_date`, run the full re-ingest
(`scrape_pharmacies` then `process_scraped_pharmacies`); otherwise do
nothing.  A `ValueError` from `strptime` on a malformed stored date is
swallowed by the surrounding `except` with no write.  Returns the new table
and whether a re-ingest was triggered. -/
def checkAndUpdateOnDuty (today : Date) (fetch : FetchResult)
    (reg : List Pharm) (now : Nat) (db : List RosterRow) :
    List RosterRow × Bool :=
  match maxIdRow db with
  | none =>
    let r := scrapePharmacies fetch
    (processScrapedPharmacies reg r.1 r.2.1 r.2.2 now db, true)
  | some row =>
    match parseIsoDate row.endDate with
    | none => (db, false)
    | some ed =>
      if dateLtB ed today then
        let r := scrapePharmacies fetch
        (processScrapedPharmacies reg r.1 r.2.1 r.2.2 now db, true)
      else (db, false)

/-- One reconciler invocation per input `(start, end, ids, now)`, in order:
the shape of "N successful reconciliations". -/
def runReconciles (inputs : List (String × String × List Nat × Nat))
    (db : List RosterRow) : List RosterRow :=
  inputs.foldl
    (fun d i => updateOnDutyPharmacies i.1 i.2.1 i.2.2.1 i.2.2.2 d) db

/-! ### Helper lemmas -/

theorem minRowId_eq_none {db : List RosterRow} :
    minRowId db = none ↔ db = [] := by
  cases db <;> simp [minRowId]

theorem minRowId_map (db : List RosterRow) (f : RosterRow → RosterRow)
    (h : ∀ r, (f r).id = r.id) : minRowId (db.map f) = minRowId db := by
  unfold minRowId
  rw [List.map_map]
  have he : (fun r : RosterRow => r.id) ∘ f = fun r : RosterRow => r.id :=
    funext fun r => h r
  rw [he]

theorem updateOnDuty_nil (s e : String) (ids : List Nat) (now : Nat) :
    updateOnDutyPharmacies s e ids now [] = [⟨1, s, e, ids, now, now⟩] := rfl

theorem updateOnDuty_single (s e : String) (ids : List Nat) (now : Nat)
    (r : RosterRow) :
    updateOnDutyPharmacies s e ids now [r] =
      [⟨r.id, s, e, ids, r.createdAt, now⟩] := by
  simp [updateOnDutyPharmacies, minRowId]

theorem runReconciles_single_ids (inputs : List (String × String × List Nat × Nat)) :
    ∀ r : RosterRow,
      (runReconciles inputs [r]).map (fun x => x.id) = [r.id] := by
  induction inputs with
  | nil => intro r; simp [runReconciles]
  | cons x rest ih =>
    intro r
    show (runReconciles rest (updateOnDutyPharmacies x.1 x.2.1 x.2.2.1 x.2.2.2 [r])).map
        (fun x => x.id) = [r.id]
    rw [updateOnDuty_single]
    exact ih _

/-! ### Claim theorems -/

/-- C3: if the validity period is absent — both when a date is `None`/empty
and on the fetch-failure path of `scrape_pharmacies`, which returns
`([], None, None)` — `process_scraped_pharmacies` performs no write: the
roster table is returned exactly as it was. -/
theorem c3_absent_period_no_write (reg : List Pharm) (l : List RawListing)
    (s e : Option String) (now : Nat) (db : List RosterRow) :
    (pyTruthy s = false ∨ pyTruthy e = false →
      processScrapedPharmacies reg l s e now db = db) ∧
    processScrapedPharmacies reg (scrapePharmacies .failure).1
      (scrapePharmacies .failure).2.1 (scrapePharmacies .failure).2.2 now db
      = db := by
  constructor
  · intro h
    rcases h with h | h <;> simp [processScrapedPharmacies, h]
  · rfl

/-- Witness for C3 at a concrete run: a listing that would match is still not
written when the start date is `None`. -/
theorem c3_witness :
    processScrapedPharmacies [⟨7, "Zed", "ph"⟩] [⟨"ph", "x", "Zed", []⟩]
      none (some "2025-01-11") 5 [] = [] :=
  (c3_absent_period_no_write [⟨7, "Zed", "ph"⟩] [⟨"ph", "x", "Zed", []⟩]
    none (some "2025-01-11") 5 []).1 (Or.inl (by decide))

/-- C6: reconciling the same `(period, identifier set)` twice in succession
leaves the roster in the same observable state as reconciling it once.
`CURRENT_TIMESTAMP` is modelled as the explicit call-time `now`; the two
successive calls read the same clock. -/
theorem c6_reconcile_idempotent (s e : String) (ids : List Nat) (now : Nat)
    (db : List RosterRow) :
    updateOnDutyPharmacies s e ids now (updateOnDutyPharmacies s e ids now db)
      = updateOnDutyPharmacies s e ids now db := by
  by_cases hdb : db = []
  · subst hdb
    rw [updateOnDuty_nil, updateOnDuty_single]
  · obtain ⟨i, hi⟩ : ∃ i, minRowId db = some i := by
      cases db with
      | nil => exact absurd rfl hdb
      | cons a l => exact ⟨_, rfl⟩
    set f : RosterRow → RosterRow :=
      fun r => if r.id = i then ⟨r.id, s, e, ids, r.createdAt, now⟩ else r
      with hf
    have hid : ∀ r : RosterRow, (f r).id = r.id := by
      intro r
      by_cases hr : r.id = i <;> simp [hf, hr]
    have hstep : updateOnDutyPharmacies s e ids now db = db.map f := by
      unfold updateOnDutyPharmacies
      rw [hi]
    have hstep2 : updateOnDutyPharmacies s e ids now (db.map f) =
        (db.map f).map f := by
      unfold updateOnDutyPharmacies
      rw [minRowId_map db f hid, hi]
    rw [hstep, hstep2, List.map_map]
    apply List.map_congr_left
    intro r _
    by_cases hr : r.id = i <;> simp [hf, Function.comp, hr]

/-- Witness for C6 on a concrete roster. -/
theorem c6_witness :
    updateOnDutyPharmacies "2025-01-05" "2025-01-11" [7, 3] 9
        (updateOnDutyPharmacies "2025-01-05" "2025-01-11" [7, 3] 9
          [⟨1, "a", "b", [2], 0, 0⟩])
      = updateOnDutyPharmacies "2025-01-05" "2025-01-11" [7, 3] 9
          [⟨1, "a", "b", [2], 0, 0⟩] :=
  c6_reconcile_idempotent "2025-01-05" "2025-01-11" [7, 3] 9
    [⟨1, "a", "b", [2], 0, 0⟩]

/-- C4: starting from an empty roster table, any non-empty sequence of
successful reconciliations leaves exactly one row, the one created first
(id 1); and on a non-empty table a reconciliation preserves the row ids —
it never appends a second row. -/
theorem c4_singleton_invariant :
    (∀ inputs : List (String × String × List Nat × Nat), inputs ≠ [] →
      (runReconciles inputs []).map (fun r => r.id) = [1]) ∧
    (∀ (s e : String) (ids : List Nat) (now : Nat) (db : List RosterRow),
      db ≠ [] →
      (updateOnDutyPharmacies s e ids now db).map (fun r => r.id) =
        db.map (fun r => r.id)) := by
  constructor
  · intro inputs hne
    cases inputs with
    | nil => exact absurd rfl hne
    | cons x rest =>
      show (runReconciles rest
        (updateOnDutyPharmacies x.1 x.2.1 x.2.2.1 x.2.2.2 [])).map
          (fun r => r.id) = [1]
      rw [updateOnDuty_nil]
      exact runReconciles_single_ids rest _
  · intro s e ids now db hdb
    obtain ⟨i, hi⟩ : ∃ i, minRowId db = some i := by
      cases db with
      | nil => exact absurd rfl hdb
      | cons a l => exact ⟨_, rfl⟩
    have hstep : updateOnDutyPharmacies s e ids now db =
        db.map (fun r =>
          if r.id = i then (⟨r.id, s, e, ids, r.createdAt, now⟩ : RosterRow)
          else r) := by
      unfold updateOnDutyPharmacies
      rw [hi]
    rw [hstep, List.map_map]
    apply List.map_congr_left
    intro r _
    by_cases hr : r.id = i <;> simp [Function.comp, hr]

/-- Witness for C4: two concrete reconciliations from the empty table, and an
id-preservation instance on a concrete non-empty table. -/
theorem c4_witness :
    (runReconciles [("2025-01-05", "2025-01-11", [7, 3], 2),
        ("2025-01-12", "2025-01-18", [5], 4)] []).map (fun r => r.id) = [1] ∧
    (updateOnDutyPharmacies "a" "b" [9] 3 [⟨4, "s", "e", [1], 0, 0⟩]).map
        (fun r => r.id) =
      ([⟨4, "s", "e", [1], 0, 0⟩] : List RosterRow).map (fun r => r.id) :=
  ⟨c4_singleton_invariant.1 _ (by decide),
   c4_singleton_invariant.2 "a" "b" [9] 3 [⟨4, "s", "e", [1], 0, 0⟩] (by decide)⟩

/-- C8: the matcher's accept decision is monotone in the acceptance
threshold: anything matched under `t2` is matched, with the same identifier,
under any `t1 ≤ t2`. -/
theorem c8_threshold_monotone (t1 t2 : ℚ) (reg : List Pharm)
    (pharmacyName city : String) (pid : Nat) (hle : t1 ≤ t2)
    (h : findPharmacyMatchT t2 reg pharmacyName city = some pid) :
    findPharmacyMatchT t1 reg pharmacyName city = some pid := by
  unfold findPharmacyMatchT at h ⊢
  by_cases hc : (candidatesFor reg (mapCityName city)).isEmpty
  · simp [hc] at h
  · simp only [hc, if_false] at h ⊢
    by_cases ht : t2 < (bestOf pharmacyName (candidatesFor reg (mapCityName city))).2
    · have ht1 : t1 < (bestOf pharmacyName (candidatesFor reg (mapCityName city))).2 :=
        lt_of_le_of_lt hle ht
      simp only [ht, if_true] at h
      simp only [ht1, if_true]
      exact h
    · simp [ht] at h

/-- Witness for C8 at a concrete registry: a match accepted at threshold 2/5
is still accepted at threshold 1/5. -/
theorem c8_witness :
    findPharmacyMatchT (mkRat 1 5) [⟨7, "Zed", "ph"⟩] "ph" "Zed" = some 7 :=
  c8_threshold_monotone (mkRat 1 5) (mkRat 2 5) [⟨7, "Zed", "ph"⟩] "ph" "Zed" 7
    (by decide) (by decide)

/-- C7: date-range extraction returns the ISO pair exactly when the
`dd/mm/yyyy au dd/mm/yyyy` pattern matches somewhere in the title and both
groups are valid calendar dates (`strptimeDDMMYYYY`); on the published sample
title it yields `(2025-01-05, 2025-01-11)`; when the pattern does not match,
or either date is invalid, the period is reported absent. -/
theorem c7_extract_date_range :
    extractDateRange "Pharmacies de garde du 05/01/2025 au 11/01/2025"
      = (some "2025-01-05", some "2025-01-11") ∧
    (∀ title : String, dateRangeSearch title.data = none →
      extractDateRange title = (none, none)) ∧
    (∀ (title : String) (g : List Char × List Char),
      dateRangeSearch title.data = some g →
      strptimeDDMMYYYY g.1 = none ∨ strptimeDDMMYYYY g.2 = none →
      extractDateRange title = (none, none)) ∧
    (∀ (title : String) (g : List Char × List Char) (a b : Date),
      dateRangeSearch title.data = some g →
      strptimeDDMMYYYY g.1 = some a → strptimeDDMMYYYY g.2 = some b →
      extractDateRange title = (some (strftimeISO a), some (strftimeISO b))) := by
  refine ⟨by decide, ?_, ?_, ?_⟩
  · intro title h
    unfold extractDateRange
    rw [h]
  · intro title g hs hbad
    unfold extractDateRange
    simp only [hs]
    rcases hbad with h | h
    · simp only [h]
    · simp only [h]
      cases strptimeDDMMYYYY g.1 <;> rfl
  · intro title g a b hs h1 h2
    unfold extractDateRange
    simp only [hs, h1, h2]

/-- Witness for C7: the no-match branch at a concrete title with no date. -/
theorem c7_witness : extractDateRange "Pharmacies de garde" = (none, none) :=
  c7_extract_date_range.2.1 "Pharmacies de garde" (by decide)

/-- C10: a row whose first cell has no bold element parses to a listing with
an empty name; a row whose (stripped) address contains no `" - "` separator
parses to a listing with an empty city; and the matching loop of
`process_scraped_pharmacies` ignores every listing whose name or city is
empty, so such rows never contribute an identifier to the ids written to the
roster (which are exactly `matchedIds`, see `c1_amended_dup_preserved`). -/
theorem c10_empty_name_city_skipped :
    (∀ cells : List PageCell, 3 ≤ cells.length →
      (cells.getD 0 default).bold = none →
      (parsePharmacyRow cells).map (fun l => l.name) = some "") ∧
    (∀ cells : List PageCell, 3 ≤ cells.length →
      strContains (pyStrip (cells.getD 1 default).text) " - " = false →
      (parsePharmacyRow cells).map (fun l => l.city) = some "") ∧
    (∀ (reg : List Pharm) (listings : List RawListing),
      matchedIds reg listings =
        matchedIds reg (listings.filter
          (fun p => !(p.name = "") && !(p.city = "")))) := by
  refine ⟨?_, ?_, ?_⟩
  · intro cells hlen hbold
    have h3 : ¬ cells.length < 3 := by omega
    simp only [List.getD_eq_getElem?_getD] at hbold
    simp [parsePharmacyRow, h3, hbold]
  · intro cells hlen hsep
    have h3 : ¬ cells.length < 3 := by omega
    simp only [List.getD_eq_getElem?_getD] at hsep
    simp [parsePharmacyRow, h3, hsep]
  · intro reg listings
    induction listings with
    | nil => rfl
    | cons p rest ih =>
      rw [List.filter_cons]
      by_cases hp : (!(p.name = "") && !(p.city = "")) = true
      · rw [if_pos hp]
        simp only [matchedIds]
        rw [ih]
      · rw [if_neg hp]
        have hc : matchContrib reg p = [] := by
          simp only [matchContrib]
          simp [hp]
        simp only [matchedIds]
        rw [hc, List.nil_append, ih]

/-- Characterization of the best-match loop: starting from `(b0, r0)`, the
fold either returns the accumulator unchanged (when no candidate's ratio
strictly exceeds `r0`), or returns the first-seen candidate whose ratio
strictly exceeds `r0`, all earlier candidates, and weakly dominates all
candidates. -/
theorem foldl_bestStep_cases (pharmacyName : String)
    (l : List (Nat × String)) :
    ∀ (b0 : Option Nat) (r0 : ℚ),
      (l.foldl (bestStep pharmacyName) (b0, r0) = (b0, r0) ∧
        ∀ c ∈ l, similarity pharmacyName c.2 ≤ r0) ∨
      (∃ i : Fin l.length,
        l.foldl (bestStep pharmacyName) (b0, r0) =
          (some (l.get i).1, similarity pharmacyName (l.get i).2) ∧
        r0 < similarity pharmacyName (l.get i).2 ∧
        (∀ j : Fin l.length, (j : Nat) < (i : Nat) →
          similarity pharmacyName (l.get j).2 <
            similarity pharmacyName (l.get i).2) ∧
        (∀ j : Fin l.length,
          similarity pharmacyName (l.get j).2 ≤
            similarity pharmacyName (l.get i).2)) := by
  induction l with
  | nil =>
    intro b0 r0
    exact Or.inl ⟨rfl, by simp⟩
  | cons c l2 ih =>
    intro b0 r0
    have hstep : (c :: l2).foldl (bestStep pharmacyName) (b0, r0) =
        l2.foldl (bestStep pharmacyName) (bestStep pharmacyName (b0, r0) c) :=
      rfl
    by_cases hc : r0 < similarity pharmacyName c.2
    · have hbs : bestStep pharmacyName (b0, r0) c =
          (some c.1, similarity pharmacyName c.2) := by
        simp [bestStep, hc]
      rcases ih (some c.1) (similarity pharmacyName c.2) with
        ⟨heq, hall⟩ | ⟨i, heq, hgt, hlt, hle⟩
      · refine Or.inr ⟨⟨0, by simp⟩, ?_, hc, ?_, ?_⟩
        · rw [hstep, hbs]
          exact heq
        · intro j hj
          exact absurd hj (Nat.not_lt_zero _)
        · rintro ⟨jv, hjv⟩
          cases jv with
          | zero => exact le_refl _
          | succ k =>
            exact hall (l2.get ⟨k, by simpa using hjv⟩)
              (List.get_mem l2 k (by simpa using hjv))
      · refine Or.inr ⟨⟨(i : Nat) + 1,
          by simp [Nat.succ_lt_succ i.isLt]⟩, ?_, ?_, ?_, ?_⟩
        · rw [hstep, hbs, List.get_cons_succ]
          exact heq
        · rw [List.get_cons_succ]
          exact lt_trans hc hgt
        · rintro ⟨jv, hjv⟩ hj
          rw [List.get_cons_succ]
          cases jv with
          | zero => exact hgt
          | succ k =>
            have hk : k < (i : Nat) := Nat.lt_of_succ_lt_succ hj
            exact hlt ⟨k, by simpa using hjv⟩ hk
        · rintro ⟨jv, hjv⟩
          rw [List.get_cons_succ]
          cases jv with
          | zero => exact le_of_lt hgt
          | succ k => exact hle ⟨k, by simpa using hjv⟩
    · have hbs : bestStep pharmacyName (b0, r0) c = (b0, r0) := by
        simp [bestStep, hc]
      rcases ih b0 r0 with ⟨heq, hall⟩ | ⟨i, heq, hgt, hlt, hle⟩
      · refine Or.inl ⟨?_, ?_⟩
        · rw [hstep, hbs]
          exact heq
        · intro x hx
          rcases List.mem_cons.mp hx with h | h
          · subst h
            exact not_lt.mp hc
          · exact hall x h
      · refine Or.inr ⟨⟨(i : Nat) + 1,
          by simp [Nat.succ_lt_succ i.isLt]⟩, ?_, ?_, ?_, ?_⟩
        · rw [hstep, hbs, List.get_cons_succ]
          exact heq
        · rw [List.get_cons_succ]
          exact hgt
        · rintro ⟨jv, hjv⟩ hj
          rw [List.get_cons_succ]
          cases jv with
          | zero => exact lt_of_le_of_lt (not_lt.mp hc) hgt
          | succ k =>
            have hk : k < (i : Nat) := Nat.lt_of_succ_lt_succ hj
            exact hlt ⟨k, by simpa using hjv⟩ hk
        · rintro ⟨jv, hjv⟩
          rw [List.get_cons_succ]
          cases jv with
          | zero => exact le_of_lt (lt_of_le_of_lt (not_lt.mp hc) hgt)
          | succ k => exact hle ⟨k, by simpa using hjv⟩

/-- C2: the matcher returns no match exactly when the city's candidate set is
empty or no candidate's case-insensitive similarity ratio strictly exceeds
the 0.4 threshold; and it returns `some pid` exactly when `pid` is the
candidate with the strictly highest ratio — first-seen on ties (strictly
above all earlier candidates, weakly above all) — and that best ratio
strictly exceeds the threshold. -/
theorem c2_matcher_selection (reg : List Pharm) (pharmacyName city : String) :
    (findPharmacyMatch reg pharmacyName city = none ↔
      candidatesFor reg (mapCityName city) = [] ∨
        ∀ j : Fin (candidatesFor reg (mapCityName city)).length,
          similarity pharmacyName
              ((candidatesFor reg (mapCityName city)).get j).2
            ≤ SIMILARITY_THRESHOLD) ∧
    (∀ pid : Nat,
      findPharmacyMatch reg pharmacyName city = some pid ↔
        ∃ i : Fin (candidatesFor reg (mapCityName city)).length,
          ((candidatesFor reg (mapCityName city)).get i).1 = pid ∧
          SIMILARITY_THRESHOLD <
            similarity pharmacyName
              ((candidatesFor reg (mapCityName city)).get i).2 ∧
          (∀ j : Fin (candidatesFor reg (mapCityName city)).length,
            (j : Nat) < (i : Nat) →
            similarity pharmacyName
                ((candidatesFor reg (mapCityName city)).get j).2 <
              similarity pharmacyName
                ((candidatesFor reg (mapCityName city)).get i).2) ∧
          (∀ j : Fin (candidatesFor reg (mapCityName city)).length,
            similarity pharmacyName
                ((candidatesFor reg (mapCityName city)).get j).2 ≤
              similarity pharmacyName
                ((candidatesFor reg (mapCityName city)).get i).2)) := by
  set l := candidatesFor reg (mapCityName city) with hldef
  have hdef : findPharmacyMatch reg pharmacyName city =
      (if l.isEmpty then none
       else if SIMILARITY_THRESHOLD < (bestOf pharmacyName l).2 then
         (bestOf pharmacyName l).1
       else none) := rfl
  by_cases hemp : l.isEmpty
  · have hnil : l = [] := List.isEmpty_iff.mp hemp
    constructor
    · rw [hdef]
      simp [hemp, hnil]
    · intro pid
      rw [hdef]
      simp only [hemp, if_true]
      constructor
      · intro h
        cases h
      · rintro ⟨i, -⟩
        rw [hnil] at i
        exact i.elim0
  · have hne : ¬ l = [] := fun h => hemp (by rw [h]; rfl)
    rcases foldl_bestStep_cases pharmacyName l none 0 with
      ⟨heq, hall⟩ | ⟨i, heq, hgt, hlt, hle⟩
    · have hbest : bestOf pharmacyName l = (none, (0 : ℚ)) := heq
      have hth0 : ¬ (SIMILARITY_THRESHOLD < (0 : ℚ)) := by decide
      have hres : findPharmacyMatch reg pharmacyName city = none := by
        rw [hdef]
        simp [hemp, hbest, hth0]
      constructor
      · rw [hres]
        constructor
        · intro _
          refine Or.inr fun j => ?_
          exact le_trans (hall (l.get j) (List.get_mem l j j.isLt))
            (by decide : (0 : ℚ) ≤ SIMILARITY_THRESHOLD)
        · intro _
          rfl
      · intro pid
        rw [hres]
        constructor
        · intro h
          cases h
        · rintro ⟨i, -, hth, -, -⟩
          have h1 : similarity pharmacyName (l.get i).2 ≤ 0 :=
            hall (l.get i) (List.get_mem l i i.isLt)
          have h2 : (0 : ℚ) < SIMILARITY_THRESHOLD := by decide
          exact absurd (lt_trans h2 hth) (not_lt.mpr h1)
    · have hbest : bestOf pharmacyName l =
          (some (l.get i).1, similarity pharmacyName (l.get i).2) := heq
      by_cases hth : SIMILARITY_THRESHOLD < similarity pharmacyName (l.get i).2
      · have hres : findPharmacyMatch reg pharmacyName city =
            some (l.get i).1 := by
          rw [hdef]
          have hth2 := hth
          simp only [List.get_eq_getElem] at hth2
          simp [hemp, hbest, hth2]
        constructor
        · rw [hres]
          constructor
          · intro h
            cases h
          · rintro (h | h)
            · exact absurd h hne
            · exact absurd hth (not_lt.mpr (h i))
        · intro pid
          rw [hres]
          constructor
          · intro h
            injection h with h
            exact ⟨i, h, hth, hlt, hle⟩
          · rintro ⟨i2, hpid, hth2, hlt2, hle2⟩
            have hvi : (i : Nat) = (i2 : Nat) := by
              rcases Nat.lt_trichotomy (i : Nat) (i2 : Nat) with h | h | h
              · exact absurd (lt_of_lt_of_le (hlt2 i h) (hle i2))
                  (lt_irrefl _)
              · exact h
              · exact absurd (lt_of_lt_of_le (hlt i2 h) (hle2 i))
                  (lt_irrefl _)
            have hii : i = i2 := Fin.ext hvi
            rw [hii, hpid]
      · have hres : findPharmacyMatch reg pharmacyName city = none := by
          rw [hdef]
          have hth2 := hth
          simp only [List.get_eq_getElem] at hth2
          simp [hemp, hbest, hth2]
        constructor
        · rw [hres]
          constructor
          · intro _
            exact Or.inr fun j => le_trans (hle j) (not_lt.mp hth)
          · intro _
            rfl
        · intro pid
          rw [hres]
          constructor
          · intro h
            cases h
          · rintro ⟨i2, -, hth2, -, -⟩
            exact absurd (lt_of_lt_of_le hth2 (hle i2)) hth

/-- Witness for C2: on a one-candidate registry the iff yields the concrete
match. -/
theorem c2_witness :
    findPharmacyMatch [⟨7, "Zed", "ph"⟩] "ph" "Zed" = some 7 :=
  ((c2_matcher_selection [⟨7, "Zed", "ph"⟩] "ph" "Zed").2 7).mpr (by decide)

/-- C1 counterexample: two raw listings in the same run that match the same
canonical pharmacy (id 7) produce the persisted identifier list `[7, 7]` —
`process_scraped_pharmacies` appends each match without removing duplicates,
so the stored set is not duplicate-free as the claim states. -/
theorem c1_counterexample :
    (processScrapedPharmacies [⟨7, "Zed", "ph"⟩]
        [⟨"ph", "x", "Zed", []⟩, ⟨"ph", "x", "Zed", []⟩]
        (some "2025-01-05") (some "2025-01-11") 5 []).map
        (fun r => r.pharmacyIds) = [[7, 7]] ∧
    ¬ ([7, 7] : List Nat).Nodup := by
  exact ⟨by decide, by decide⟩

/-- C1 amended: the persisted identifier list is exactly the match results in
insertion (matching) order, with duplicates retained — one entry per accepted
match; `matchedIds` is an append homomorphism, so insertion order is
preserved across the run. -/
theorem c1_amended_dup_preserved (reg : List Pharm) (l : List RawListing)
    (s e : Option String) (now : Nat)
    (hs : pyTruthy s = true) (he : pyTruthy e = true) :
    processScrapedPharmacies reg l s e now []
      = [⟨1, s.getD "", e.getD "", matchedIds reg l, now, now⟩] ∧
    (∀ l1 l2 : List RawListing,
      matchedIds reg (l1 ++ l2) = matchedIds reg l1 ++ matchedIds reg l2) := by
  constructor
  · simp [processScrapedPharmacies, hs, he, updateOnDuty_nil]
  · intro l1 l2
    induction l1 with
    | nil => rfl
    | cons p rest ih =>
      simp only [List.cons_append, matchedIds, List.append_eq]
      rw [ih, List.append_assoc]

/-- Witness for C1's amended claim at the counterexample input. -/
theorem c1_witness :
    processScrapedPharmacies [⟨7, "Zed", "ph"⟩]
        [⟨"ph", "x", "Zed", []⟩, ⟨"ph", "x", "Zed", []⟩]
        (some "2025-01-05") (some "2025-01-11") 5 []
      = [⟨1, (some "2025-01-05").getD "", (some "2025-01-11").getD "",
          matchedIds [⟨7, "Zed", "ph"⟩]
            [⟨"ph", "x", "Zed", []⟩, ⟨"ph", "x", "Zed", []⟩], 5, 5⟩] :=
  (c1_amended_dup_preserved [⟨7, "Zed", "ph"⟩]
    [⟨"ph", "x", "Zed", []⟩, ⟨"ph", "x", "Zed", []⟩]
    (some "2025-01-05") (some "2025-01-11") 5 (by decide) (by decide)).1

/-- `a ≤ b` on dates rules out `b < a`. -/
theorem dateLeB_not_lt (a b : Date) (h : dateLeB a b = true) :
    dateLtB b a = false := by
  cases a; cases b
  simp only [dateLeB, dateLtB, Date.mk.injEq, Bool.or_eq_true,
    Bool.and_eq_true, decide_eq_true_eq, Bool.or_eq_false_iff,
    Bool.and_eq_false_iff, decide_eq_false_iff_not] at h ⊢
  omega

/-- C5: the expiry check triggers the full re-ingest when the roster table is
empty; when a roster row exists (with a well-formed stored end date, as every
date the reconciler writes is), it triggers exactly when today is strictly
after the end date; and when today ≤ end date it performs no action, leaving
the table untouched. -/
theorem c5_expiry_trigger (today : Date) (fetch : FetchResult)
    (reg : List Pharm) (now : Nat) (db : List RosterRow) :
    (maxIdRow db = none →
      (checkAndUpdateOnDuty today fetch reg now db).2 = true) ∧
    (∀ row ed, maxIdRow db = some row → parseIsoDate row.endDate = some ed →
      ((checkAndUpdateOnDuty today fetch reg now db).2 = true ↔
        dateLtB ed today = true)) ∧
    (∀ row ed, maxIdRow db = some row → parseIsoDate row.endDate = some ed →
      dateLeB today ed = true →
      checkAndUpdateOnDuty today fetch reg now db = (db, false)) := by
  refine ⟨?_, ?_, ?_⟩
  · intro h
    unfold checkAndUpdateOnDuty
    rw [h]
  · intro row ed hrow hed
    unfold checkAndUpdateOnDuty
    simp only [hrow, hed]
    by_cases hlt : dateLtB ed today = true <;> simp [hlt]
  · intro row ed hrow hed hle
    unfold checkAndUpdateOnDuty
    simp only [hrow, hed]
    simp [dateLeB_not_lt today ed hle]

/-- Witness for C5: a roster valid through 2025-01-11 checked on 2025-01-11
is left untouched, and the empty table triggers a re-ingest. -/
theorem c5_witness :
    checkAndUpdateOnDuty ⟨2025, 1, 11⟩ .failure [] 9
        [⟨1, "2025-01-05", "2025-01-11", [7], 0, 0⟩]
      = ([⟨1, "2025-01-05", "2025-01-11", [7], 0, 0⟩], false) ∧
    (checkAndUpdateOnDuty ⟨2025, 1, 12⟩ .failure [] 9 []).2 = true :=
  ⟨(c5_expiry_trigger ⟨2025, 1, 11⟩ .failure [] 9
      [⟨1, "2025-01-05", "2025-01-11", [7], 0, 0⟩]).2.2
      ⟨1, "2025-01-05", "2025-01-11", [7], 0, 0⟩ ⟨2025, 1, 11⟩
      (by decide) (by decide) (by decide),
   (c5_expiry_trigger ⟨2025, 1, 12⟩ .failure [] 9 []).1 (by decide)⟩

/-- Witness for C10 on a concrete malformed row (no bold name, no `" - "` in
the address) and a concrete listing list with an empty-name entry. -/
theorem c10_witness :
    (parsePharmacyRow [⟨none, "Analakely", ""⟩, ⟨none, "Analakely", ""⟩,
        ⟨none, "", "22 235 55"⟩]).map (fun l => l.name) = some "" ∧
    (parsePharmacyRow [⟨none, "Analakely", ""⟩, ⟨none, "Analakely", ""⟩,
        ⟨none, "", "22 235 55"⟩]).map (fun l => l.city) = some "" ∧
    matchedIds [⟨7, "Zed", "ph"⟩]
        [⟨"", "x", "Zed", []⟩, ⟨"ph", "x", "", []⟩, ⟨"ph", "x", "Zed", []⟩]
      = matchedIds [⟨7, "Zed", "ph"⟩]
          (([⟨"", "x", "Zed", []⟩, ⟨"ph", "x", "", []⟩, ⟨"ph", "x", "Zed", []⟩] :
            List RawListing).filter
            (fun p => !(p.name = "") && !(p.city = ""))) :=
  ⟨c10_empty_name_city_skipped.1 _ (by decide) (by decide),
   c10_empty_name_city_skipped.2.1 _ (by decide) (by decide),
   c10_empty_name_city_skipped.2.2 [⟨7, "Zed", "ph"⟩]
     [⟨"", "x", "Zed", []⟩, ⟨"ph", "x", "", []⟩, ⟨"ph", "x", "Zed", []⟩]⟩

end Pharmanio
